import Mathlib

/-!
Verification of the PeerPool subsystem of the lisk-sdk repository.

The definitions below are a shallow embedding of
`src/elements/lisk-p2p/src/peer_pool.ts` (class `PeerPool`) and of
`getBucket` / `constructPeerIdFromPeerInfo` from the p2p utility file
(`src/unnamed/part_002`).  The JavaScript `Map` backing the live-peer map is
embedded as an association list with the same observable behaviour
(insertion order preserved, unique keys in every reachable state,
`set` on an existing key replaces in place, `delete` removes the entry).

Behaviour of the `Peer` class itself (`peer.ts`) is not part of the sources;
where an operation of the pool depends on it, the dependency is modelled from
the specification and marked as such in the corresponding doc comment:
the remote interaction performed by `peer.send` and `peer.request` is passed
in as an explicit oracle argument, and `peer.updatePeerInfo` replaces the
stored `peerInfo`.

Nondeterminism in the source (`lodash.shuffle`, `Math.random`) is made
explicit: the victim choice of the inbound eviction is an extra `victim`
argument, and the random draw inside `getBucket` is an extra `Fin 64`
argument standing for the value of `Math.floor(Math.random() * 64)`.

Exceptions thrown by pool methods are embedded as error results; a method
that can throw after having mutated the pool returns the partially mutated
pool together with the error, matching JavaScript exception semantics.
-/

/-- Identity and advertised attributes of a remote node (`P2PPeerInfo`,
with one representative discovered attribute, `height`). -/
structure P2PPeerInfo where
  ipAddress : String
  wsPort : Nat
  height : Nat
deriving DecidableEq

/-- `constructPeerIdFromPeerInfo` from the p2p utility file:
the canonical peer id is the string `ip:port`. -/
def constructPeerIdFromPeerInfo (peerInfo : P2PPeerInfo) : String :=
  peerInfo.ipAddress ++ ":" ++ toString peerInfo.wsPort

/-- The local node state pushed to peers (`P2PNodeInfo`, abbreviated to the
field the selectors could inspect). -/
structure P2PNodeInfo where
  height : Nat
deriving DecidableEq

/-- A fire-and-forget message packet (`P2PMessagePacket`). -/
structure P2PMessagePacket where
  event : String
deriving DecidableEq

/-- A request packet (`P2PRequestPacket`). -/
structure P2PRequestPacket where
  procedure : String
deriving DecidableEq

/-- A response packet (`P2PResponsePacket`). -/
structure P2PResponsePacket where
  data : String
deriving DecidableEq

/-- A close packet (`P2PClosePacket`): the peer info of the closing peer. -/
structure P2PClosePacket where
  peerInfo : P2PPeerInfo
  code : Nat
deriving DecidableEq

/-- Whether a live peer is inbound or outbound.  The source distinguishes the
two with `instanceof InboundPeer` / `instanceof OutboundPeer`; the embedding
uses an explicit tag. -/
inductive PeerKind
  | inbound
  | outbound
deriving DecidableEq

/-- The twelve per-peer event kinds the pool subscribes to in
`_bindHandlersToPeer`. -/
inductive PeerEvent
  | requestReceived
  | messageReceived
  | connectOutbound
  | connectAbortOutbound
  | closeOutbound
  | closeInbound
  | outboundSocketError
  | inboundSocketError
  | updatedPeerInfo
  | failedPeerInfoUpdate
  | banPeer
  | unbanPeer
deriving DecidableEq

/-- Errors thrown by pool methods.  `requestFail` and `sendFail` carry the
message of the thrown `RequestFailError` / `SendFailError`; `duplicatePeer`
is the plain `Error` thrown by `addInboundPeer`; `evictUndefined` is the
runtime `TypeError` raised by `shuffle(inboundPeers)[0].id` when the inbound
list is empty. -/
inductive PoolError
  | requestFail (message : String)
  | requestTimeout
  | sendFail (message : String)
  | duplicatePeer (peerId : String)
  | peerNotFound
  | evictUndefined
deriving DecidableEq

/-- A live peer as the pool sees it.  `id` is fixed at construction from the
initial `peerInfo` (canonical `ip:port`); `listeners` records, as a multiset,
the pool handlers currently registered on this peer object, one entry per
`peer.on(event, handler)` call that has not been matched by a
`peer.removeListener(event, handler)` call. -/
structure Peer where
  id : String
  peerInfo : P2PPeerInfo
  kind : PeerKind
  listeners : List PeerEvent
deriving DecidableEq

/-- Modelled from the spec: `peer.ts` (class `Peer`) is not under `src/`.
Per the spec, `addOutboundPeer` on an existing peer "updates its `peerInfo`";
the update replaces the stored `peerInfo` and touches nothing else. -/
def Peer.updatePeerInfo (peer : Peer) (peerInfo : P2PPeerInfo) : Peer :=
  { peer with peerInfo := peerInfo }

/-- A fresh inbound peer object (`new InboundPeer(peerInfo, socket, config)`):
its id is the canonical id of its initial peer info and no pool handlers are
registered on it yet. -/
def mkInboundPeer (peerInfo : P2PPeerInfo) : Peer :=
  { id := constructPeerIdFromPeerInfo peerInfo
    peerInfo := peerInfo
    kind := PeerKind.inbound
    listeners := [] }

/-- A fresh outbound peer object (`new OutboundPeer(peerInfo, socket, config)`). -/
def mkOutboundPeer (peerInfo : P2PPeerInfo) : Peer :=
  { id := constructPeerIdFromPeerInfo peerInfo
    peerInfo := peerInfo
    kind := PeerKind.outbound
    listeners := [] }

/-- The twelve events registered by `_bindHandlersToPeer`, in source order. -/
def bindList : List PeerEvent :=
  [PeerEvent.requestReceived, PeerEvent.messageReceived,
   PeerEvent.connectOutbound, PeerEvent.connectAbortOutbound,
   PeerEvent.closeOutbound, PeerEvent.closeInbound,
   PeerEvent.outboundSocketError, PeerEvent.inboundSocketError,
   PeerEvent.updatedPeerInfo, PeerEvent.failedPeerInfoUpdate,
   PeerEvent.banPeer, PeerEvent.unbanPeer]

/-- The ten events removed by `_unbindHandlersFromPeer`, in source order.
The source removes listeners for neither `outboundSocketError` nor
`inboundSocketError`. -/
def unbindList : List PeerEvent :=
  [PeerEvent.requestReceived, PeerEvent.messageReceived,
   PeerEvent.connectOutbound, PeerEvent.connectAbortOutbound,
   PeerEvent.closeOutbound, PeerEvent.closeInbound,
   PeerEvent.updatedPeerInfo, PeerEvent.failedPeerInfoUpdate,
   PeerEvent.banPeer, PeerEvent.unbanPeer]

/-- `_bindHandlersToPeer`: registers one pool handler per event in
`bindList` on the peer object. -/
def bindHandlersToPeer (peer : Peer) : Peer :=
  { peer with listeners := peer.listeners ++ bindList }

/-- `_unbindHandlersFromPeer`: each `removeListener` call removes at most one
registered instance of the given event's handler. -/
def unbindHandlersFromPeer (peer : Peer) : Peer :=
  { peer with listeners := unbindList.foldl (fun l e => l.erase e) peer.listeners }

/-- Number of pool re-emissions triggered by one synthetic emission of event
`e` on the peer object: the event emitter calls each registered listener
once, and each pool handler re-emits the received event exactly once. -/
def emissionCount (peer : Peer) (e : PeerEvent) : Nat :=
  peer.listeners.count e

/-- The live-peer map (`this._peerMap : Map<string, Peer>`), embedded as an
association list in insertion order. -/
abbrev PeerMap := List (String × Peer)

/-- `Map.prototype.get`. -/
def mapGet (m : PeerMap) (k : String) : Option Peer :=
  (m.find? (fun e => e.1 == k)).map (fun e => e.2)

/-- `Map.prototype.has`. -/
def mapHas (m : PeerMap) (k : String) : Bool :=
  (mapGet m k).isSome

/-- `Map.prototype.set`: replaces the value of an existing key in place,
otherwise appends the new entry at the end. -/
def mapSet (m : PeerMap) (k : String) (v : Peer) : PeerMap :=
  match m with
  | [] => [(k, v)]
  | e :: rest => if e.1 = k then (k, v) :: rest else e :: mapSet rest k v

/-- `Map.prototype.delete` (the removed entry; the boolean result is
`mapHas`). -/
def mapDelete (m : PeerMap) (k : String) : PeerMap :=
  m.filter (fun e => e.1 ≠ k)

/-- The pool state: the live-peer map plus the configuration fields the
embedded operations read (`_nodeInfo`, `_maxOutboundConnections`,
`_maxInboundConnections`, `_sendPeerLimit`). -/
structure PeerPool where
  peerMap : PeerMap
  nodeInfo : Option P2PNodeInfo
  maxOutboundConnections : Nat
  maxInboundConnections : Nat
  sendPeerLimit : Nat
deriving DecidableEq

/-- Well-formedness of a reachable pool state: the map keys are distinct
(a JavaScript `Map` cannot hold a key twice) and every entry is stored under
its peer's own id (every insertion in the source uses `peer.id` as the key). -/
def PeerPool.WF (pool : PeerPool) : Prop :=
  (pool.peerMap.map Prod.fst).Nodup ∧ ∀ e ∈ pool.peerMap, e.1 = e.2.id

instance (pool : PeerPool) : Decidable pool.WF := by
  unfold PeerPool.WF
  infer_instance

/-- `getPeer`. -/
def PeerPool.getPeer (pool : PeerPool) (peerId : String) : Option Peer :=
  mapGet pool.peerMap peerId

/-- `hasPeer`. -/
def PeerPool.hasPeer (pool : PeerPool) (peerId : String) : Bool :=
  mapHas pool.peerMap peerId

/-- `getPeers(kind?)`: the map values, filtered by kind when one is given. -/
def PeerPool.getPeers (pool : PeerPool) (kind : Option PeerKind) : List Peer :=
  let peers := pool.peerMap.map (fun e => e.2)
  match kind with
  | some k => peers.filter (fun p => decide (p.kind = k))
  | none => peers

/-- Result of `getPeersCountPerKind` (`P2PPeersCount`). -/
structure P2PPeersCount where
  outbound : Nat
  inbound : Nat
deriving DecidableEq

/-- `getPeersCountPerKind`: counts the map values by kind (the source folds
over the values with `instanceof` checks; every embedded peer is one of the
two kinds). -/
def PeerPool.getPeersCountPerKind (pool : PeerPool) : P2PPeersCount :=
  { outbound := pool.peerMap.countP (fun e => decide (e.2.kind = PeerKind.outbound))
    inbound := pool.peerMap.countP (fun e => decide (e.2.kind = PeerKind.inbound)) }

/-- Result of `removePeer`.  `removed` is the boolean the method returns
(`this._peerMap.delete(peerId)`); `unboundPeer` is the final state of the
detached peer object after `_unbindHandlersFromPeer` ran on it (the source
discards the reference; the embedding keeps it so that the listener state of
the detached object can be observed).  The socket teardown performed by
`peer.disconnect()` is outside the modelled state. -/
structure RemoveResult where
  removed : Bool
  unboundPeer : Option Peer
  pool : PeerPool
deriving DecidableEq

/-- `removePeer(peerId)`: if the peer is present, disconnect it and unbind
the pool handlers from it; in every case return the result of deleting the
key from the map. -/
def PeerPool.removePeer (pool : PeerPool) (peerId : String) : RemoveResult :=
  match mapGet pool.peerMap peerId with
  | some peer =>
      { removed := true
        unboundPeer := some (unbindHandlersFromPeer peer)
        pool := { pool with peerMap := mapDelete pool.peerMap peerId } }
  | none =>
      { removed := false, unboundPeer := none, pool := pool }

/-- Result of `addOutboundPeer`: the returned peer and the pool afterwards. -/
structure AddOutboundResult where
  peer : Peer
  pool : PeerPool
deriving DecidableEq

/-- `addOutboundPeer(peerId, peerInfo, socket?)`: if `getPeer(peerId)` finds
an existing peer (of either kind), update its peer info and return it;
otherwise construct a fresh outbound peer, store it under its own id
(`peer.id`, derived from `peerInfo` — not necessarily the `peerId` argument),
and bind the pool handlers to it.  The asynchronous node-info push performed
on the fresh peer does not change the modelled state. -/
def PeerPool.addOutboundPeer (pool : PeerPool) (peerId : String)
    (peerInfo : P2PPeerInfo) : AddOutboundResult :=
  match mapGet pool.peerMap peerId with
  | some existingPeer =>
      let updated := existingPeer.updatePeerInfo peerInfo
      { peer := updated
        pool := { pool with peerMap := mapSet pool.peerMap peerId updated } }
  | none =>
      let peer := bindHandlersToPeer (mkOutboundPeer peerInfo)
      { peer := peer
        pool := { pool with peerMap := mapSet pool.peerMap peer.id peer } }

/-- Outcome of `addInboundPeer`: either the created peer or the thrown
error. -/
inductive AddResult
  | ok (peer : Peer)
  | err (error : PoolError)
deriving DecidableEq

/-- Result of `addInboundPeer`: the outcome together with the pool state
afterwards — on a throw, the mutations already performed are kept. -/
structure AddInboundResult where
  result : AddResult
  pool : PeerPool
deriving DecidableEq

/-- The insertion half of `addInboundPeer`, after the eviction check:
construct the inbound peer, throw `duplicatePeer` if its id (`peer.id`,
which is the canonical id of its peer info) is already a key, otherwise
store it under that id and bind the pool handlers. -/
def addInboundInsert (pool : PeerPool) (peerInfo : P2PPeerInfo) : AddInboundResult :=
  if mapHas pool.peerMap (constructPeerIdFromPeerInfo peerInfo) then
    { result := AddResult.err
        (PoolError.duplicatePeer (constructPeerIdFromPeerInfo peerInfo))
      pool := pool }
  else
    { result := AddResult.ok (bindHandlersToPeer (mkInboundPeer peerInfo))
      pool := { pool with peerMap := mapSet pool.peerMap (constructPeerIdFromPeerInfo peerInfo) (bindHandlersToPeer (mkInboundPeer peerInfo)) } }

/-- `addInboundPeer(peerInfo, socket)`: when the inbound count has reached
`maxInboundConnections`, remove the peer at position `victim` of the inbound
list first (`shuffle(inboundPeers)[0]` — the shuffle makes the position
arbitrary, so it is an explicit argument; on an empty inbound list the
source raises a `TypeError` on `undefined.id`), then insert the new inbound
peer. -/
def PeerPool.addInboundPeer (pool : PeerPool) (peerInfo : P2PPeerInfo)
    (victim : Nat) : AddInboundResult :=
  let inboundPeers := pool.getPeers (some PeerKind.inbound)
  if inboundPeers.length ≥ pool.maxInboundConnections then
    match inboundPeers.get? (victim % inboundPeers.length) with
    | none => { result := AddResult.err PoolError.evictUndefined, pool := pool }
    | some victimPeer =>
        addInboundInsert (pool.removePeer victimPeer.id).pool peerInfo
  else
    addInboundInsert pool peerInfo

/-- Argument record of the pluggable send selector. -/
structure SendSelectorInput where
  peers : List P2PPeerInfo
  nodeInfo : Option P2PNodeInfo
  peerLimit : Nat
  messagePacket : P2PMessagePacket

/-- The pluggable `peerSelectionForSend` function. -/
abbrev SendSelector := SendSelectorInput → List P2PPeerInfo

/-- Argument record of the pluggable request selector. -/
structure ReqSelectorInput where
  peers : List P2PPeerInfo
  nodeInfo : Option P2PNodeInfo
  peerLimit : Nat
  requestPacket : P2PRequestPacket

/-- The pluggable `peerSelectionForRequest` function. -/
abbrev ReqSelector := ReqSelectorInput → List P2PPeerInfo

/-- Argument record of the pluggable connection selector.  `peerLimit` is
`maxOutboundConnections - outbound`, which can be negative in JavaScript,
hence an integer. -/
structure ConnSelectorInput where
  peers : List P2PPeerInfo
  peerLimit : Int

/-- The pluggable `peerSelectionForConnection` function. -/
abbrev ConnSelector := ConnSelectorInput → List P2PPeerInfo

/-- Modelled from the spec: `peer.ts` is not under `src/`.  `peer.send`
either succeeds or throws a `SendFail` when the channel is not connected;
the oracle answers whether the send on this peer succeeds. -/
abbrev SendOracle := Peer → P2PMessagePacket → Bool

/-- Outcome of `request` / `requestFromPeer`. -/
inductive ReqResult
  | ok (response : P2PResponsePacket)
  | err (error : PoolError)
deriving DecidableEq

/-- Modelled from the spec: `peer.ts` is not under `src/`.  `peer.request`
awaits the remote response and otherwise fails (with `RequestTimeout` or
`RequestFail`); the oracle gives the outcome of the remote interaction. -/
abbrev ReqOracle := Peer → P2PRequestPacket → ReqResult

/-- `sendToPeer(message, peerId)`: throws `SendFailError` when the peer is
absent from the map, otherwise performs `peer.send(message)` (whose outcome
the oracle decides); `none` is success. -/
def PeerPool.sendToPeer (pool : PeerPool) (sOrc : SendOracle)
    (message : P2PMessagePacket) (peerId : String) : Option PoolError :=
  match mapGet pool.peerMap peerId with
  | none =>
      some (PoolError.sendFail
        ("Send failed because a peer with id " ++ peerId ++ " could not be found"))
  | some peer =>
      if sOrc peer message then none
      else some (PoolError.sendFail "Peer send failed")

/-- The `selectedPeers.forEach` loop of `send`: calls `sendToPeer` on each
selected peer in order; the first thrown error aborts the loop and
propagates.  Returns the ids delivered to, and the escaped error if any. -/
def sendLoop (pool : PeerPool) (sOrc : SendOracle) (message : P2PMessagePacket) :
    List P2PPeerInfo → List String → List String × Option PoolError
  | [], delivered => (delivered.reverse, none)
  | info :: rest, delivered =>
      let peerId := constructPeerIdFromPeerInfo info
      match pool.sendToPeer sOrc message peerId with
      | none => sendLoop pool sOrc message rest (peerId :: delivered)
      | some e => (delivered.reverse, some e)

/-- The argument `send` hands to the send selector: the peer infos of every
peer in the map, the current node info, and `sendPeerLimit`. -/
def sendSelInput (pool : PeerPool) (message : P2PMessagePacket) : SendSelectorInput :=
  { peers := pool.peerMap.map (fun e => e.2.peerInfo)
    nodeInfo := pool.nodeInfo
    peerLimit := pool.sendPeerLimit
    messagePacket := message }

/-- `send(message)`: runs the send selector over the peer infos of every
peer in the map with `sendPeerLimit`, then forwards to `sendToPeer` for each
selected peer.  There is no catch: a per-peer failure escapes to the
caller. -/
def PeerPool.send (pool : PeerPool) (σ : SendSelector) (sOrc : SendOracle)
    (message : P2PMessagePacket) : List String × Option PoolError :=
  let selectedPeers := σ (sendSelInput pool message)
  sendLoop pool sOrc message selectedPeers []

/-- The message of the `RequestFailError` thrown when the request selector
returns no peer. -/
def noPeersMsg : String :=
  "Request failed due to no peers found in peer selection"

/-- `requestFromPeer(packet, peerId)`: throws `RequestFailError` when the
peer is absent, otherwise returns the outcome of `peer.request(packet)`. -/
def PeerPool.requestFromPeer (pool : PeerPool) (orc : ReqOracle)
    (packet : P2PRequestPacket) (peerId : String) : ReqResult :=
  match mapGet pool.peerMap peerId with
  | none =>
      ReqResult.err (PoolError.requestFail
        ("Request failed because a peer with id " ++ peerId ++ " could not be found"))
  | some peer => orc peer packet

/-- The argument `request` hands to the request selector: the peer infos of
every peer in the map, the current node info, and `peerLimit` 1. -/
def reqSelInput (pool : PeerPool) (packet : P2PRequestPacket) : ReqSelectorInput :=
  { peers := pool.peerMap.map (fun e => e.2.peerInfo)
    nodeInfo := pool.nodeInfo
    peerLimit := 1
    requestPacket := packet }

/-- `request(packet)`: runs the request selector with `peerLimit` 1 over the
peer infos of every peer in the map; throws `RequestFailError` when the
selection is empty, otherwise forwards to `requestFromPeer` for the first
selected peer's canonical id. -/
def PeerPool.request (pool : PeerPool) (σ : ReqSelector) (orc : ReqOracle)
    (packet : P2PRequestPacket) : ReqResult :=
  let selectedPeers := σ (reqSelInput pool packet)
  match selectedPeers with
  | [] => ReqResult.err (PoolError.requestFail noPeersMsg)
  | info :: _ =>
      pool.requestFromPeer orc packet (constructPeerIdFromPeerInfo info)

/-- The argument `triggerNewConnections` hands to the connection selector:
the candidates not already in the map, with limit
`maxOutboundConnections - outbound` (an integer, as it can be negative in
JavaScript). -/
def connSelInput (pool : PeerPool) (peers : List P2PPeerInfo) : ConnSelectorInput :=
  { peers := peers.filter
      (fun p => !(mapHas pool.peerMap (constructPeerIdFromPeerInfo p)))
    peerLimit := (pool.maxOutboundConnections : Int)
      - (pool.getPeersCountPerKind.outbound : Int) }

/-- `triggerNewConnections(peers)`: filter out candidates already in the
map, run the connection selector with limit
`maxOutboundConnections - outbound`, and add each selected candidate as an
outbound peer. -/
def PeerPool.triggerNewConnections (pool : PeerPool) (σ : ConnSelector)
    (peers : List P2PPeerInfo) : PeerPool :=
  let peersToConnect := σ (connSelInput pool peers)
  peersToConnect.foldl
    (fun pl info => (pl.addOutboundPeer (constructPeerIdFromPeerInfo info) info).pool)
    pool

/-- Events re-emitted on the pool that the close handlers produce. -/
inductive PoolEvent
  | closeOutbound (packet : P2PClosePacket)
  | closeInbound (packet : P2PClosePacket)
deriving DecidableEq

/-- `_handlePeerCloseOutbound`: remove the closing peer from the map, then
re-emit `closeOutbound`.  Each emission in the returned trace is paired with
the pool state at the moment it becomes visible to subscribers. -/
def PeerPool.handlePeerCloseOutbound (pool : PeerPool)
    (closePacket : P2PClosePacket) : PeerPool × List (PoolEvent × PeerPool) :=
  let peerId := constructPeerIdFromPeerInfo closePacket.peerInfo
  let pool1 := (pool.removePeer peerId).pool
  (pool1, [(PoolEvent.closeOutbound closePacket, pool1)])

/-- `_handlePeerCloseInbound`: remove the closing peer from the map, then
re-emit `closeInbound`, with the same trace convention. -/
def PeerPool.handlePeerCloseInbound (pool : PeerPool)
    (closePacket : P2PClosePacket) : PeerPool × List (PoolEvent × PeerPool) :=
  let peerId := constructPeerIdFromPeerInfo closePacket.peerInfo
  let pool1 := (pool.removePeer peerId).pool
  (pool1, [(PoolEvent.closeInbound closePacket, pool1)])

/-- `getBucket(ipAddress, secret, bucketSize)` from the p2p utility file.
The source is the TODO stub `Math.floor(Math.random() * 64)`: the result is
the runtime's random draw, independent of all three arguments.  `randomDraw`
makes that draw explicit — the value of `Math.floor(Math.random() * 64)` for
this invocation, an arbitrary natural below 64. -/
def getBucket (_ipAddress : String) (_secret : Nat) (_bucketSize : Nat)
    (randomDraw : Fin 64) : Nat :=
  randomDraw.val

/-! Concrete inputs used by the counterexamples and witnesses below. -/

/-- Peer info `1.1.1.1:5000` with height 0. -/
def infoA : P2PPeerInfo := { ipAddress := "1.1.1.1", wsPort := 5000, height := 0 }

/-- Peer info `2.2.2.2:5000` with height 0. -/
def infoB : P2PPeerInfo := { ipAddress := "2.2.2.2", wsPort := 5000, height := 0 }

/-- Peer info `3.3.3.3:5000` with height 0. -/
def infoC : P2PPeerInfo := { ipAddress := "3.3.3.3", wsPort := 5000, height := 0 }

/-- Peer info `9.9.9.9:5000` with height 0 — never added to any pool. -/
def infoAbsent : P2PPeerInfo := { ipAddress := "9.9.9.9", wsPort := 5000, height := 0 }

/-- Peer info `1.1.1.1:5000` with height 10. -/
def infoH10 : P2PPeerInfo := { ipAddress := "1.1.1.1", wsPort := 5000, height := 10 }

/-- Peer info `1.1.1.1:5000` with height 20. -/
def infoH20 : P2PPeerInfo := { ipAddress := "1.1.1.1", wsPort := 5000, height := 20 }

/-- An empty pool with both connection caps at 0. -/
def emptyPoolCap0 : PeerPool :=
  { peerMap := []
    nodeInfo := none
    maxOutboundConnections := 0
    maxInboundConnections := 0
    sendPeerLimit := 16 }

/-- An empty pool with both connection caps at 1. -/
def emptyPoolCap1 : PeerPool :=
  { peerMap := []
    nodeInfo := none
    maxOutboundConnections := 1
    maxInboundConnections := 1
    sendPeerLimit := 16 }

/-- An outbound peer object for `infoA` with the pool handlers bound,
as `addOutboundPeer` leaves it. -/
def peerA : Peer := bindHandlersToPeer (mkOutboundPeer infoA)

/-- An inbound peer object for `infoB` with the pool handlers bound,
as `addInboundPeer` leaves it. -/
def peerBIn : Peer := bindHandlersToPeer (mkInboundPeer infoB)

/-- A pool holding the single bound outbound peer `peerA`, caps at 1. -/
def poolWithA : PeerPool :=
  { peerMap := [(peerA.id, peerA)]
    nodeInfo := none
    maxOutboundConnections := 1
    maxInboundConnections := 1
    sendPeerLimit := 16 }

/-- A pool at its inbound capacity 1, holding the single bound inbound peer
`peerBIn`. -/
def poolFullInbound : PeerPool :=
  { peerMap := [(peerBIn.id, peerBIn)]
    nodeInfo := none
    maxOutboundConnections := 1
    maxInboundConnections := 1
    sendPeerLimit := 16 }

/-- A selector that ignores its input and proposes the absent peer. -/
def selAbsentForSend : SendSelector := fun _ => [infoAbsent]

/-- A request selector that ignores its input and proposes the absent peer. -/
def selAbsentForReq : ReqSelector := fun _ => [infoAbsent]

/-- A send selector that selects every candidate. -/
def selAllForSend : SendSelector := fun inp => inp.peers

/-- A request selector honouring the subset contract: the first candidates
up to the limit. -/
def selTakeForReq : ReqSelector := fun inp => inp.peers.take inp.peerLimit

/-- A connection selector honouring the documented contract: the first
candidates up to the (clamped) limit. -/
def selTakeForConn : ConnSelector := fun inp => inp.peers.take inp.peerLimit.toNat

/-- A send oracle whose channels always deliver. -/
def sendAlwaysOk : SendOracle := fun _ _ => true

/-- A request oracle whose remote always answers with an empty response. -/
def reqAlwaysOk : ReqOracle := fun _ _ => ReqResult.ok { data := "" }

/-- A message packet used in the examples. -/
def msgBlocks : P2PMessagePacket := { event := "postBlock" }

/-- A request packet used in the examples. -/
def pktGetBlocks : P2PRequestPacket := { procedure := "getBlocks" }

/-- A close packet for `infoA`. -/
def closePacketA : P2PClosePacket := { peerInfo := infoA, code := 1000 }

/-- The pool state at the moment `_handlePeerCloseOutbound` re-emits the
close event for `closePacketA` on `poolWithA`. -/
def poolWithAAfterClose : PeerPool :=
  (poolWithA.handlePeerCloseOutbound closePacketA).1

/-! Lemmas about the association-list embedding of the JavaScript `Map`. -/

theorem mapGet_cons (e : String × Peer) (rest : PeerMap) (k : String) :
    mapGet (e :: rest) k = if e.1 = k then some e.2 else mapGet rest k := by
  by_cases h : e.1 = k
  · simp [mapGet, List.find?_cons, h]
  · simp [mapGet, List.find?_cons, h]

theorem mapHas_eq_false_iff (m : PeerMap) (k : String) :
    mapHas m k = false ↔ mapGet m k = none := by
  cases h : mapGet m k <;> simp [mapHas, h]

theorem mapGet_mapDelete_self (m : PeerMap) (k : String) :
    mapGet (mapDelete m k) k = none := by
  induction m with
  | nil => rfl
  | cons e rest ih =>
      by_cases h : e.1 = k
      · simpa [mapDelete, List.filter_cons, h] using ih
      · simpa [mapDelete, List.filter_cons, h, mapGet_cons] using ih

theorem mapGet_mapDelete_ne (m : PeerMap) (k k' : String) (h : k' ≠ k) :
    mapGet (mapDelete m k) k' = mapGet m k' := by
  induction m with
  | nil => rfl
  | cons e rest ih =>
      by_cases he : e.1 = k
      · rw [show mapDelete (e :: rest) k = mapDelete rest k by
          simp [mapDelete, List.filter_cons, he], ih, mapGet_cons,
          if_neg (by rw [he]; exact fun hk => h hk.symm)]
      · rw [show mapDelete (e :: rest) k = e :: mapDelete rest k by
          simp [mapDelete, List.filter_cons, he], mapGet_cons, mapGet_cons, ih]

theorem mapGet_mapSet_self (m : PeerMap) (k : String) (v : Peer) :
    mapGet (mapSet m k v) k = some v := by
  induction m with
  | nil => simp [mapSet, mapGet_cons]
  | cons e rest ih =>
      by_cases h : e.1 = k
      · simp [mapSet, h, mapGet_cons]
      · simp [mapSet, h, mapGet_cons, ih]

theorem length_mapSet_of_get_some (m : PeerMap) (k : String) (p v : Peer)
    (hg : mapGet m k = some p) : (mapSet m k v).length = m.length := by
  induction m with
  | nil => simp [mapGet] at hg
  | cons e rest ih =>
      rw [mapGet_cons] at hg
      by_cases h : e.1 = k
      · simp [mapSet, h]
      · rw [if_neg h] at hg
        simp [mapSet, h, ih hg]

theorem mapSet_of_get_none (m : PeerMap) (k : String) (v : Peer)
    (hg : mapGet m k = none) : mapSet m k v = m ++ [(k, v)] := by
  induction m with
  | nil => rfl
  | cons e rest ih =>
      rw [mapGet_cons] at hg
      by_cases h : e.1 = k
      · rw [if_pos h] at hg; exact absurd hg (by simp)
      · rw [if_neg h] at hg
        simp [mapSet, h, ih hg]

theorem countP_mapSet_le (m : PeerMap) (k : String) (v : Peer)
    (f : String × Peer → Bool) :
    (mapSet m k v).countP f ≤ m.countP f + 1 := by
  have h1 : (if f (k, v) = true then 1 else 0) ≤ 1 := by split <;> omega
  induction m with
  | nil =>
      simp only [mapSet, List.countP_cons, List.countP_nil]
      omega
  | cons e rest ih =>
      by_cases h : e.1 = k
      · simp only [mapSet, if_pos h, List.countP_cons]
        omega
      · simp only [mapSet, if_neg h, List.countP_cons]
        omega

theorem countP_mapSet_of_get (m : PeerMap) (k : String) (p v : Peer)
    (f : String × Peer → Bool) (hg : mapGet m k = some p)
    (hf : f (k, v) = f (k, p)) :
    (mapSet m k v).countP f = m.countP f := by
  induction m with
  | nil => simp [mapGet] at hg
  | cons e rest ih =>
      rw [mapGet_cons] at hg
      by_cases h : e.1 = k
      · rw [if_pos h] at hg
        have he2 : e.2 = p := Option.some.inj hg
        have he : e = (k, p) := Prod.ext h he2
        subst he
        simp [mapSet, List.countP_cons, hf]
      · rw [if_neg h] at hg
        simp only [mapSet, if_neg h, List.countP_cons, ih hg]

theorem mapGet_eq_none_of_not_mem_keys (m : PeerMap) (k : String)
    (h : k ∉ m.map Prod.fst) : mapGet m k = none := by
  induction m with
  | nil => rfl
  | cons e rest ih =>
      rw [List.map_cons, List.mem_cons] at h
      push_neg at h
      rw [mapGet_cons, if_neg (fun hk => h.1 hk.symm)]
      exact ih h.2

theorem mapGet_of_mem_nodup (m : PeerMap) (k : String) (p : Peer)
    (hnd : (m.map Prod.fst).Nodup) (hmem : (k, p) ∈ m) :
    mapGet m k = some p := by
  induction m with
  | nil => cases hmem
  | cons e rest ih =>
      rw [List.map_cons, List.nodup_cons] at hnd
      rcases List.mem_cons.mp hmem with he | hrest
      · rw [← he, mapGet_cons, if_pos rfl]
      · have hek : e.1 ≠ k := by
          intro hk
          exact hnd.1 (by rw [hk]; exact List.mem_map_of_mem Prod.fst hrest)
        rw [mapGet_cons, if_neg hek]
        exact ih hnd.2 hrest

theorem mapDelete_eq_self_of_get_none (m : PeerMap) (k : String)
    (h : mapGet m k = none) : mapDelete m k = m := by
  induction m with
  | nil => rfl
  | cons e rest ih =>
      rw [mapGet_cons] at h
      by_cases he : e.1 = k
      · rw [if_pos he] at h; exact absurd h (by simp)
      · rw [if_neg he] at h
        simp only [mapDelete, List.filter_cons, decide_eq_true_eq]
        rw [if_pos he]
        have := ih h
        simp only [mapDelete] at this
        rw [this]

theorem countP_mapDelete_of_mem (m : PeerMap) (k : String) (p : Peer)
    (f : String × Peer → Bool)
    (hnd : (m.map Prod.fst).Nodup) (hmem : (k, p) ∈ m) :
    (mapDelete m k).countP f + (if f (k, p) = true then 1 else 0) = m.countP f := by
  induction m with
  | nil => cases hmem
  | cons e rest ih =>
      rw [List.map_cons, List.nodup_cons] at hnd
      rcases List.mem_cons.mp hmem with he | hrest
      · have hek : e.1 = k := by rw [← he]
        have hkeys : k ∉ rest.map Prod.fst := by rw [← hek]; exact hnd.1
        have hrest_eq : mapDelete rest k = rest :=
          mapDelete_eq_self_of_get_none rest k
            (mapGet_eq_none_of_not_mem_keys rest k hkeys)
        have hdel : mapDelete (e :: rest) k = rest := by
          simp only [mapDelete, List.filter_cons, hek]
          simpa [mapDelete] using hrest_eq
        rw [hdel, ← he, List.countP_cons]
      · have hek : e.1 ≠ k := by
          intro hk
          exact hnd.1 (by rw [hk]; exact List.mem_map_of_mem Prod.fst hrest)
        have hdel : mapDelete (e :: rest) k = e :: mapDelete rest k := by
          simp only [mapDelete, List.filter_cons, decide_eq_true_eq]
          rw [if_pos hek]
        rw [hdel, List.countP_cons, List.countP_cons]
        have := ih hnd.2 hrest
        omega

theorem length_mapDelete_of_mem (m : PeerMap) (k : String) (p : Peer)
    (hnd : (m.map Prod.fst).Nodup) (hmem : (k, p) ∈ m) :
    (mapDelete m k).length + 1 = m.length := by
  have h := countP_mapDelete_of_mem m k p (fun _ => true) hnd hmem
  simpa [List.countP_true] using h

theorem hasPeer_removePeer_self (pool : PeerPool) (peerId : String) :
    (pool.removePeer peerId).pool.hasPeer peerId = false := by
  unfold PeerPool.removePeer
  cases h : mapGet pool.peerMap peerId with
  | some peer =>
      simp only [PeerPool.hasPeer]
      rw [mapHas_eq_false_iff]
      exact mapGet_mapDelete_self pool.peerMap peerId
  | none =>
      simp only [PeerPool.hasPeer]
      rw [mapHas_eq_false_iff]
      exact h

theorem length_getPeers_some (pool : PeerPool) (κ : PeerKind) :
    (pool.getPeers (some κ)).length
      = pool.peerMap.countP (fun e => decide (e.2.kind = κ)) := by
  simp only [PeerPool.getPeers]
  rw [← List.countP_eq_length_filter, List.countP_map]
  rfl

theorem mem_getPeers_some (pool : PeerPool) (κ : PeerKind) (p : Peer)
    (h : p ∈ pool.getPeers (some κ)) :
    (∃ e ∈ pool.peerMap, e.2 = p) ∧ p.kind = κ := by
  simp only [PeerPool.getPeers, List.mem_filter, decide_eq_true_eq] at h
  obtain ⟨hmem, hkind⟩ := h
  obtain ⟨e, he, hep⟩ := List.mem_map.mp hmem
  exact ⟨⟨e, he, hep⟩, hkind⟩

/-! Claim theorems. -/

/-- C4 (code_bug evaluation): `getBucket` is the stub
`Math.floor(Math.random() * 64)`; at the failing input
`("1.1.1.1", 0, 64)`, two invocations whose random draws are 0 and 1
return different bucket indices, so the function is not deterministic as the
claim (and the TODO in the source) intend. -/
theorem getBucket_not_deterministic :
    getBucket "1.1.1.1" 0 64 (0 : Fin 64) = 0 ∧
    getBucket "1.1.1.1" 0 64 (1 : Fin 64) = 1 ∧
    getBucket "1.1.1.1" 0 64 (0 : Fin 64) ≠ getBucket "1.1.1.1" 0 64 (1 : Fin 64) := by
  exact ⟨rfl, rfl, by decide⟩

theorem removePeer_of_absent (pool : PeerPool) (peerId : String)
    (h : pool.hasPeer peerId = false) :
    (pool.removePeer peerId).removed = false ∧ (pool.removePeer peerId).pool = pool := by
  rw [PeerPool.hasPeer, mapHas_eq_false_iff] at h
  simp [PeerPool.removePeer, h]

/-- C9: `removePeer` of an absent peer returns `false` and leaves the pool
unchanged (the method has no throwing path); after any `removePeer(id)`,
`hasPeer(id)` is `false`, and a repeated `removePeer(id)` returns `false`. -/
theorem removePeer_absent_and_idempotent (pool : PeerPool) (peerId : String) :
    (pool.hasPeer peerId = false →
      (pool.removePeer peerId).removed = false ∧
      (pool.removePeer peerId).pool = pool) ∧
    (pool.removePeer peerId).pool.hasPeer peerId = false ∧
    ((pool.removePeer peerId).pool.removePeer peerId).removed = false := by
  refine ⟨fun h => removePeer_of_absent pool peerId h,
    hasPeer_removePeer_self pool peerId, ?_⟩
  exact (removePeer_of_absent (pool.removePeer peerId).pool peerId
    (hasPeer_removePeer_self pool peerId)).1

/-- C9 witness: the theorem applied to the empty pool and the id `x`. -/
theorem removePeer_absent_and_idempotent_witness :
    ((emptyPoolCap1.removePeer "x").removed = false ∧
      (emptyPoolCap1.removePeer "x").pool = emptyPoolCap1) ∧
    ((emptyPoolCap1.removePeer "x").pool.hasPeer "x" = false ∧
      ((emptyPoolCap1.removePeer "x").pool.removePeer "x").removed = false) :=
  ⟨(removePeer_absent_and_idempotent emptyPoolCap1 "x").1 (by decide),
   (removePeer_absent_and_idempotent emptyPoolCap1 "x").2⟩

/-- C8: both close handlers remove the closing peer from the map before the
re-emitted close event becomes visible: at every emission in the handler
trace, the pool state paired with the event no longer contains the peer. -/
theorem closeHandlers_remove_before_emit (pool : PeerPool)
    (closePacket : P2PClosePacket) (ev : PoolEvent) (s : PeerPool) :
    ((ev, s) ∈ (pool.handlePeerCloseOutbound closePacket).2 →
      s.hasPeer (constructPeerIdFromPeerInfo closePacket.peerInfo) = false) ∧
    ((ev, s) ∈ (pool.handlePeerCloseInbound closePacket).2 →
      s.hasPeer (constructPeerIdFromPeerInfo closePacket.peerInfo) = false) := by
  constructor
  · intro h
    simp only [PeerPool.handlePeerCloseOutbound, List.mem_singleton,
      Prod.mk.injEq] at h
    rw [h.2]
    exact hasPeer_removePeer_self pool _
  · intro h
    simp only [PeerPool.handlePeerCloseInbound, List.mem_singleton,
      Prod.mk.injEq] at h
    rw [h.2]
    exact hasPeer_removePeer_self pool _

/-- C8 witness: for the pool holding peer `1.1.1.1:5000`, the state paired
with the re-emitted `closeOutbound` event no longer contains the peer. -/
theorem closeHandlers_remove_before_emit_witness :
    poolWithAAfterClose.hasPeer (constructPeerIdFromPeerInfo closePacketA.peerInfo)
      = false :=
  (closeHandlers_remove_before_emit poolWithA closePacketA
      (PoolEvent.closeOutbound closePacketA) poolWithAAfterClose).1 (by decide)

/-- C1 counterexample: with `maxOutboundConnections = 0` and an empty pool,
the single public operation `addOutboundPeer` pushes the outbound count to 1,
strictly above the cap — the method performs no capacity check. -/
theorem addOutboundPeer_exceeds_maxOutbound :
    (emptyPoolCap0.addOutboundPeer (constructPeerIdFromPeerInfo infoA) infoA).pool.getPeersCountPerKind.outbound
      > emptyPoolCap0.maxOutboundConnections := by decide

/-- C6 counterexample: `addOutboundPeer("x", infoA)` stores the fresh peer
under its canonical id `1.1.1.1:5000`, not under the argument `x`, so the
second call `addOutboundPeer("x", infoB)` misses it and inserts a second
entry: the map size grows from 1 to 2 instead of staying unchanged. -/
theorem addOutboundPeer_mismatched_id_grows_map :
    ((emptyPoolCap1.addOutboundPeer "x" infoA).pool.addOutboundPeer "x" infoB).pool.peerMap.length
      ≠ (emptyPoolCap1.addOutboundPeer "x" infoA).pool.peerMap.length := by decide

/-- C2 counterexample: when the send selector proposes a peer absent from
the map (here on an empty pool), `sendToPeer` throws `SendFailError` and
`send` propagates it to its caller instead of surfacing an event. -/
theorem send_error_escapes_to_caller :
    (emptyPoolCap1.send selAbsentForSend sendAlwaysOk msgBlocks).2
      = some (PoolError.sendFail
          ("Send failed because a peer with id "
            ++ constructPeerIdFromPeerInfo infoAbsent
            ++ " could not be found")) := by decide

/-- C3 counterexample: after `removePeer` of the bound peer `1.1.1.1:5000`,
the detached peer object still holds one registered pool listener for each
of `outboundSocketError` and `inboundSocketError` — `_unbindHandlersFromPeer`
removes only ten of the twelve bound event kinds. -/
theorem removePeer_leaks_socketError_listeners :
    ((poolWithA.removePeer peerA.id).unboundPeer.map
        (fun u => (u.listeners.count PeerEvent.outboundSocketError,
                   u.listeners.count PeerEvent.inboundSocketError)))
      = some (1, 1) := by decide

/-- C5 counterexample: with `maxInboundConnections = 0` the inbound count
(0) equals the cap, yet `addInboundPeer` does not evict-and-insert: the
eviction step evaluates `shuffle([])[0].id` and raises a `TypeError`, and
the new peer is not inserted. -/
theorem addInboundPeer_capacity_zero_crashes :
    (emptyPoolCap0.addInboundPeer infoA 0).result
        = AddResult.err PoolError.evictUndefined ∧
    (emptyPoolCap0.addInboundPeer infoA 0).pool.hasPeer
        (constructPeerIdFromPeerInfo infoA) = false := by decide

/-- C7 counterexample: on the empty pool with a selector that proposes the
absent peer `9.9.9.9:5000`, the selection is non-empty and yet `request`
fails with a `RequestFail` error (thrown by `requestFromPeer`), refuting
"fails with RequestFail if and only if the selector returns an empty
list". -/
theorem request_requestFail_with_nonempty_selection :
    emptyPoolCap1.request selAbsentForReq reqAlwaysOk pktGetBlocks
        = ReqResult.err (PoolError.requestFail
            ("Request failed because a peer with id "
              ++ constructPeerIdFromPeerInfo infoAbsent
              ++ " could not be found")) ∧
    selAbsentForReq { peers := [], nodeInfo := none, peerLimit := 1,
                      requestPacket := pktGetBlocks } ≠ [] := by
  exact ⟨by decide, by decide⟩

/-- C7 amended: `request` invokes the request selector with `peerLimit` 1
over the peer infos of every peer in the map; the selection-step
`RequestFail` is raised exactly when the selector returns an empty list
(in particular on a pool with zero peers, for any selector honouring the
subset contract); on a non-empty selection the call returns the result of
`requestFromPeer` for the first selected peer's canonical id — which may
itself fail with `RequestFail` when that peer is absent from the map. -/
theorem request_selection_spec (pool : PeerPool) (σ : ReqSelector)
    (orc : ReqOracle) (packet : P2PRequestPacket) :
    (σ (reqSelInput pool packet) = [] →
      pool.request σ orc packet
        = ReqResult.err (PoolError.requestFail noPeersMsg)) ∧
    (∀ info rest, σ (reqSelInput pool packet) = info :: rest →
      pool.request σ orc packet
        = pool.requestFromPeer orc packet (constructPeerIdFromPeerInfo info)) ∧
    (pool.peerMap = [] →
      (∀ inp : ReqSelectorInput, ∀ i ∈ σ inp, i ∈ inp.peers) →
      pool.request σ orc packet
        = ReqResult.err (PoolError.requestFail noPeersMsg)) := by
  refine ⟨?_, ?_, ?_⟩
  · intro h
    simp [PeerPool.request, h]
  · intro info rest h
    simp [PeerPool.request, h]
  · intro hempty hsub
    have hpeers : (reqSelInput pool packet).peers = [] := by
      simp [reqSelInput, hempty]
    have hsel : σ (reqSelInput pool packet) = [] := by
      rcases hcase : σ (reqSelInput pool packet) with _ | ⟨i, rest⟩
      · rfl
      · have hi : i ∈ σ (reqSelInput pool packet) := by
          rw [hcase]; exact List.mem_cons_self i rest
        have := hsub (reqSelInput pool packet) i hi
        rw [hpeers] at this
        cases this
    simp [PeerPool.request, hsel]

/-- C7 witness: the theorem applied to the empty pool with the
subset-honouring selector: `request` fails with the selection
`RequestFail`. -/
theorem request_selection_spec_witness :
    emptyPoolCap1.request selTakeForReq reqAlwaysOk pktGetBlocks
      = ReqResult.err (PoolError.requestFail noPeersMsg) :=
  (request_selection_spec emptyPoolCap1 selTakeForReq reqAlwaysOk
      pktGetBlocks).2.2 rfl (fun inp i hi => List.take_subset _ _ hi)

theorem sendLoop_all_ok (pool : PeerPool) (sOrc : SendOracle)
    (message : P2PMessagePacket) :
    ∀ (l : List P2PPeerInfo) (acc : List String),
    (∀ info ∈ l,
      pool.sendToPeer sOrc message (constructPeerIdFromPeerInfo info) = none) →
    sendLoop pool sOrc message l acc
      = (acc.reverse ++ l.map constructPeerIdFromPeerInfo, none) := by
  intro l
  induction l with
  | nil => intro acc _; simp [sendLoop]
  | cons info rest ih =>
      intro acc h
      have hh := h info (List.mem_cons_self info rest)
      simp only [sendLoop, hh]
      rw [ih (constructPeerIdFromPeerInfo info :: acc)
        (fun i hi => h i (List.mem_cons_of_mem _ hi))]
      simp

theorem sendLoop_err (pool : PeerPool) (sOrc : SendOracle)
    (message : P2PMessagePacket) :
    ∀ (l : List P2PPeerInfo) (acc : List String),
    (∃ info ∈ l,
      pool.sendToPeer sOrc message (constructPeerIdFromPeerInfo info) ≠ none) →
    (sendLoop pool sOrc message l acc).2 ≠ none := by
  intro l
  induction l with
  | nil =>
      intro acc h
      obtain ⟨i, hi, _⟩ := h
      cases hi
  | cons info rest ih =>
      intro acc h
      cases hres : pool.sendToPeer sOrc message (constructPeerIdFromPeerInfo info) with
      | none =>
          simp only [sendLoop, hres]
          apply ih
          obtain ⟨i, hi, hne⟩ := h
          rcases List.mem_cons.mp hi with rfl | hmem
          · exact absurd hres hne
          · exact ⟨i, hmem, hne⟩
      | some e =>
          simp [sendLoop, hres]

/-- C2 amended: `send` runs the send selector with `sendPeerLimit` and
forwards to `sendToPeer` for each selected peer in order; when every
selected peer is in the map and its channel delivers, the message reaches
exactly the selected peers and no error escapes, but a per-peer failure
(selected peer absent, or channel send failure) is thrown to the caller of
`send` — it is not surfaced as an event. -/
theorem send_forwards_and_propagates_failures (pool : PeerPool)
    (σ : SendSelector) (sOrc : SendOracle) (message : P2PMessagePacket) :
    ((∀ info ∈ σ (sendSelInput pool message),
        pool.sendToPeer sOrc message (constructPeerIdFromPeerInfo info) = none) →
      pool.send σ sOrc message
        = ((σ (sendSelInput pool message)).map constructPeerIdFromPeerInfo, none)) ∧
    ((∃ info ∈ σ (sendSelInput pool message),
        pool.sendToPeer sOrc message (constructPeerIdFromPeerInfo info) ≠ none) →
      (pool.send σ sOrc message).2 ≠ none) := by
  constructor
  · intro h
    simp only [PeerPool.send]
    rw [sendLoop_all_ok pool sOrc message _ [] h]
    simp
  · intro h
    simp only [PeerPool.send]
    exact sendLoop_err pool sOrc message _ [] h

/-- C2 witness: on the pool holding the connected peer `1.1.1.1:5000` with
the select-all selector, `send` delivers to exactly that peer and returns
without error. -/
theorem send_forwards_and_propagates_failures_witness :
    poolWithA.send selAllForSend sendAlwaysOk msgBlocks
      = ((selAllForSend (sendSelInput poolWithA msgBlocks)).map
          constructPeerIdFromPeerInfo, none) :=
  (send_forwards_and_propagates_failures poolWithA selAllForSend sendAlwaysOk
      msgBlocks).1 (by decide)

/-- C3 amended: `removePeer` unbinds the ten event kinds listed in
`_unbindHandlersFromPeer` — every bound kind except `outboundSocketError`
and `inboundSocketError`, whose listeners stay registered on the detached
peer object; nevertheless, after `removePeer(id)` followed by
`addOutboundPeer(id, info)` (with `id` the removed peer's map key), a
synthetic emission on the returned fresh peer triggers exactly one pool
re-emission for every event kind, because the fresh object carries exactly
one binding of each kind. -/
theorem removePeer_unbind_and_fresh_rebind (pool : PeerPool) (peerId : String)
    (info : P2PPeerInfo) (p : Peer)
    (hp : mapGet pool.peerMap peerId = some p)
    (hl : p.listeners = bindList) :
    (pool.removePeer peerId).unboundPeer = some (unbindHandlersFromPeer p) ∧
    (unbindHandlersFromPeer p).listeners
      = [PeerEvent.outboundSocketError, PeerEvent.inboundSocketError] ∧
    (∀ e ∈ unbindList, (unbindHandlersFromPeer p).listeners.count e = 0) ∧
    (∀ e : PeerEvent,
      emissionCount
        ((pool.removePeer peerId).pool.addOutboundPeer peerId info).peer e = 1) := by
  have hcomp : (unbindHandlersFromPeer p).listeners
      = [PeerEvent.outboundSocketError, PeerEvent.inboundSocketError] := by
    simp only [unbindHandlersFromPeer, hl]
    rfl
  refine ⟨?_, hcomp, ?_, ?_⟩
  · simp [PeerPool.removePeer, hp]
  · intro e he
    rw [hcomp]
    revert he
    revert e
    decide
  · intro e
    have hpool : (pool.removePeer peerId).pool.peerMap
        = mapDelete pool.peerMap peerId := by
      simp [PeerPool.removePeer, hp]
    have hnone : mapGet (pool.removePeer peerId).pool.peerMap peerId = none := by
      rw [hpool]
      exact mapGet_mapDelete_self pool.peerMap peerId
    simp only [PeerPool.addOutboundPeer, hnone]
    simp only [emissionCount, bindHandlersToPeer, mkOutboundPeer, List.nil_append]
    cases e <;> rfl

/-- C3 witness: the theorem applied to the pool holding the bound peer
`1.1.1.1:5000`: the detached object is the unbound peer, and the fresh peer
returned by the subsequent `addOutboundPeer` re-emits a synthetic
`messageReceived` exactly once. -/
theorem removePeer_unbind_and_fresh_rebind_witness :
    (poolWithA.removePeer peerA.id).unboundPeer = some (unbindHandlersFromPeer peerA) ∧
    emissionCount
      ((poolWithA.removePeer peerA.id).pool.addOutboundPeer peerA.id infoB).peer
      PeerEvent.messageReceived = 1 :=
  ⟨(removePeer_unbind_and_fresh_rebind poolWithA peerA.id infoB peerA
      (by decide) rfl).1,
   (removePeer_unbind_and_fresh_rebind poolWithA peerA.id infoB peerA
      (by decide) rfl).2.2.2 PeerEvent.messageReceived⟩

theorem addOutboundPeer_existing_branch (pool : PeerPool) (peerId : String)
    (info : P2PPeerInfo) (p : Peer)
    (hp : mapGet pool.peerMap peerId = some p) :
    (pool.addOutboundPeer peerId info).peer = p.updatePeerInfo info ∧
    (pool.addOutboundPeer peerId info).pool.peerMap
      = mapSet pool.peerMap peerId (p.updatePeerInfo info) := by
  simp only [PeerPool.addOutboundPeer, hp]
  exact ⟨trivial, trivial⟩

theorem addOutboundPeer_get_self (pool : PeerPool) (peerId : String)
    (info : P2PPeerInfo)
    (h : constructPeerIdFromPeerInfo info = peerId) :
    mapGet (pool.addOutboundPeer peerId info).pool.peerMap peerId
      = some (pool.addOutboundPeer peerId info).peer := by
  cases hg : mapGet pool.peerMap peerId with
  | some p =>
      simp only [PeerPool.addOutboundPeer, hg]
      exact mapGet_mapSet_self pool.peerMap peerId (p.updatePeerInfo info)
  | none =>
      simp only [PeerPool.addOutboundPeer, hg]
      have hid : (bindHandlersToPeer (mkOutboundPeer info)).id = peerId := by
        simp [bindHandlersToPeer, mkOutboundPeer, h]
      rw [hid]
      exact mapGet_mapSet_self pool.peerMap peerId
        (bindHandlersToPeer (mkOutboundPeer info))

/-- C6 amended: for a `peerId` that is the canonical id of both peer infos
(the way every internal call site constructs it), `addOutboundPeer` is
idempotent in the map key: after the first call the peer is stored under
`peerId`, and the second call updates that stored peer in place — it
returns the existing peer object updated with `info2`, stores `info2` for
`peerId`, and leaves the map size unchanged.  (For a `peerId` that differs
from the canonical id of the peer infos the property fails: the fresh peer
is stored under its own canonical id, so the second call misses it and
inserts a second entry.) -/
theorem addOutboundPeer_idempotent_canonical (pool : PeerPool) (peerId : String)
    (info1 info2 : P2PPeerInfo)
    (h1 : constructPeerIdFromPeerInfo info1 = peerId)
    (h2 : constructPeerIdFromPeerInfo info2 = peerId) :
    mapGet (pool.addOutboundPeer peerId info1).pool.peerMap peerId
      = some (pool.addOutboundPeer peerId info1).peer ∧
    ((pool.addOutboundPeer peerId info1).pool.addOutboundPeer peerId info2).peer
      = ((pool.addOutboundPeer peerId info1).peer).updatePeerInfo info2 ∧
    mapGet ((pool.addOutboundPeer peerId info1).pool.addOutboundPeer peerId
        info2).pool.peerMap peerId
      = some (((pool.addOutboundPeer peerId info1).peer).updatePeerInfo info2) ∧
    ((pool.addOutboundPeer peerId info1).pool.addOutboundPeer peerId
        info2).pool.peerMap.length
      = (pool.addOutboundPeer peerId info1).pool.peerMap.length ∧
    (((pool.addOutboundPeer peerId info1).peer).updatePeerInfo info2).peerInfo
      = info2 := by
  have hq := addOutboundPeer_get_self pool peerId info1 h1
  obtain ⟨hpeer2, hmap2⟩ :=
    addOutboundPeer_existing_branch (pool.addOutboundPeer peerId info1).pool
      peerId info2 (pool.addOutboundPeer peerId info1).peer hq
  refine ⟨hq, hpeer2, ?_, ?_, rfl⟩
  · rw [hmap2]
    exact mapGet_mapSet_self _ _ _
  · rw [hmap2]
    exact length_mapSet_of_get_some _ _ _ _ hq

/-- C6 witness: the theorem applied to the empty pool, the canonical id of
`1.1.1.1:5000`, and heights 10 then 20. -/
theorem addOutboundPeer_idempotent_canonical_witness :
    mapGet (emptyPoolCap1.addOutboundPeer (constructPeerIdFromPeerInfo infoH10)
        infoH10).pool.peerMap (constructPeerIdFromPeerInfo infoH10)
      = some (emptyPoolCap1.addOutboundPeer (constructPeerIdFromPeerInfo infoH10)
        infoH10).peer ∧
    ((emptyPoolCap1.addOutboundPeer (constructPeerIdFromPeerInfo infoH10)
        infoH10).pool.addOutboundPeer (constructPeerIdFromPeerInfo infoH10)
        infoH20).peer
      = ((emptyPoolCap1.addOutboundPeer (constructPeerIdFromPeerInfo infoH10)
        infoH10).peer).updatePeerInfo infoH20 ∧
    mapGet ((emptyPoolCap1.addOutboundPeer (constructPeerIdFromPeerInfo infoH10)
        infoH10).pool.addOutboundPeer (constructPeerIdFromPeerInfo infoH10)
        infoH20).pool.peerMap (constructPeerIdFromPeerInfo infoH10)
      = some (((emptyPoolCap1.addOutboundPeer (constructPeerIdFromPeerInfo infoH10)
        infoH10).peer).updatePeerInfo infoH20) ∧
    ((emptyPoolCap1.addOutboundPeer (constructPeerIdFromPeerInfo infoH10)
        infoH10).pool.addOutboundPeer (constructPeerIdFromPeerInfo infoH10)
        infoH20).pool.peerMap.length
      = (emptyPoolCap1.addOutboundPeer (constructPeerIdFromPeerInfo infoH10)
        infoH10).pool.peerMap.length ∧
    (((emptyPoolCap1.addOutboundPeer (constructPeerIdFromPeerInfo infoH10)
        infoH10).peer).updatePeerInfo infoH20).peerInfo = infoH20 :=
  addOutboundPeer_idempotent_canonical emptyPoolCap1
    (constructPeerIdFromPeerInfo infoH10) infoH10 infoH20 rfl (by decide)

/-- C10: when `peerId` is present as an inbound peer, `addOutboundPeer`
takes the existing-peer branch regardless of kind: it updates that inbound
peer's info in place, returns it (still inbound), and leaves both the map
size and the outbound count unchanged — no outbound connection is
created. -/
theorem addOutboundPeer_existing_inbound (pool : PeerPool) (peerId : String)
    (info : P2PPeerInfo) (p : Peer)
    (hp : mapGet pool.peerMap peerId = some p)
    (hkind : p.kind = PeerKind.inbound) :
    (pool.addOutboundPeer peerId info).peer = p.updatePeerInfo info ∧
    ((pool.addOutboundPeer peerId info).peer).kind = PeerKind.inbound ∧
    (pool.addOutboundPeer peerId info).pool.peerMap.length
      = pool.peerMap.length ∧
    (pool.addOutboundPeer peerId info).pool.getPeersCountPerKind.outbound
      = pool.getPeersCountPerKind.outbound ∧
    mapGet (pool.addOutboundPeer peerId info).pool.peerMap peerId
      = some (p.updatePeerInfo info) := by
  simp only [PeerPool.addOutboundPeer, hp]
  refine ⟨trivial, ?_, ?_, ?_, ?_⟩
  · simp [Peer.updatePeerInfo, hkind]
  · exact length_mapSet_of_get_some pool.peerMap peerId p _ hp
  · simp only [PeerPool.getPeersCountPerKind]
    exact countP_mapSet_of_get pool.peerMap peerId p (p.updatePeerInfo info) _ hp
      (by simp [Peer.updatePeerInfo])
  · exact mapGet_mapSet_self pool.peerMap peerId (p.updatePeerInfo info)

/-- C10 witness: the theorem applied to the pool holding the inbound peer
`2.2.2.2:5000`. -/
theorem addOutboundPeer_existing_inbound_witness :
    (poolFullInbound.addOutboundPeer peerBIn.id infoH10).peer
      = peerBIn.updatePeerInfo infoH10 ∧
    ((poolFullInbound.addOutboundPeer peerBIn.id infoH10).peer).kind
      = PeerKind.inbound ∧
    (poolFullInbound.addOutboundPeer peerBIn.id infoH10).pool.peerMap.length
      = poolFullInbound.peerMap.length ∧
    (poolFullInbound.addOutboundPeer peerBIn.id
        infoH10).pool.getPeersCountPerKind.outbound
      = poolFullInbound.getPeersCountPerKind.outbound ∧
    mapGet (poolFullInbound.addOutboundPeer peerBIn.id
        infoH10).pool.peerMap peerBIn.id
      = some (peerBIn.updatePeerInfo infoH10) :=
  addOutboundPeer_existing_inbound poolFullInbound peerBIn.id infoH10 peerBIn
    (by decide) rfl

theorem mapGet_mapDelete_none (m : PeerMap) (k k' : String)
    (h : mapGet m k' = none) : mapGet (mapDelete m k) k' = none := by
  by_cases hk : k' = k
  · rw [hk]
    exact mapGet_mapDelete_self m k
  · rw [mapGet_mapDelete_ne m k k' hk]
    exact h

theorem addInboundInsert_spec (pool : PeerPool) (info : P2PPeerInfo) :
    ((addInboundInsert pool info).pool.getPeersCountPerKind.inbound
        ≤ pool.getPeersCountPerKind.inbound + 1) ∧
    (pool.hasPeer (constructPeerIdFromPeerInfo info) = false →
      (addInboundInsert pool info).result
          = AddResult.ok (bindHandlersToPeer (mkInboundPeer info)) ∧
      (addInboundInsert pool info).pool.getPeersCountPerKind.inbound
          = pool.getPeersCountPerKind.inbound + 1 ∧
      (addInboundInsert pool info).pool.hasPeer
          (constructPeerIdFromPeerInfo info) = true ∧
      (addInboundInsert pool info).pool.peerMap.length
          = pool.peerMap.length + 1) ∧
    (pool.hasPeer (constructPeerIdFromPeerInfo info) = true →
      (addInboundInsert pool info).pool = pool) := by
  by_cases hdup : mapHas pool.peerMap (constructPeerIdFromPeerInfo info) = true
  · have heq : addInboundInsert pool info
        = { result := AddResult.err
              (PoolError.duplicatePeer (constructPeerIdFromPeerInfo info))
            pool := pool } := by
      simp only [addInboundInsert]
      rw [if_pos hdup]
    rw [heq]
    refine ⟨Nat.le_succ _, ?_, fun _ => rfl⟩
    intro hfresh
    simp only [PeerPool.hasPeer] at hfresh
    rw [hfresh] at hdup
    cases hdup
  · have hdup' : mapHas pool.peerMap (constructPeerIdFromPeerInfo info) = false := by
      simpa using hdup
    have hgetnone : mapGet pool.peerMap (constructPeerIdFromPeerInfo info) = none :=
      (mapHas_eq_false_iff _ _).mp hdup'
    have heq : (addInboundInsert pool info).result
          = AddResult.ok (bindHandlersToPeer (mkInboundPeer info)) ∧
        (addInboundInsert pool info).pool.peerMap
          = mapSet pool.peerMap (constructPeerIdFromPeerInfo info)
              (bindHandlersToPeer (mkInboundPeer info)) := by
      simp only [addInboundInsert]
      rw [if_neg hdup]
      exact ⟨rfl, rfl⟩
    have happend : (addInboundInsert pool info).pool.peerMap
        = pool.peerMap
          ++ [(constructPeerIdFromPeerInfo info,
               bindHandlersToPeer (mkInboundPeer info))] := by
      rw [heq.2]
      exact mapSet_of_get_none _ _ _ hgetnone
    have hpoolproj : (addInboundInsert pool info).pool.getPeersCountPerKind.inbound
        = ((addInboundInsert pool info).pool.peerMap).countP
            (fun e => decide (e.2.kind = PeerKind.inbound)) := rfl
    have hcount : (addInboundInsert pool info).pool.getPeersCountPerKind.inbound
        = pool.getPeersCountPerKind.inbound + 1 := by
      rw [hpoolproj, happend, List.countP_append]
      simp [List.countP_cons, bindHandlersToPeer, mkInboundPeer,
        PeerPool.getPeersCountPerKind]
    refine ⟨by omega, ?_, ?_⟩
    · intro hfresh
      refine ⟨heq.1, hcount, ?_, ?_⟩
      · simp only [PeerPool.hasPeer, mapHas, heq.2]
        rw [mapGet_mapSet_self]
        rfl
      · rw [happend]
        simp
    · intro htrue
      simp only [PeerPool.hasPeer] at htrue
      rw [htrue] at hdup'
      cases hdup'

theorem addInboundPeer_eq_insert_of_under (pool : PeerPool)
    (info : P2PPeerInfo) (victim : Nat)
    (h : ¬ (pool.getPeers (some PeerKind.inbound)).length
        ≥ pool.maxInboundConnections) :
    pool.addInboundPeer info victim = addInboundInsert pool info := by
  simp only [PeerPool.addInboundPeer]
  rw [if_neg h]

theorem addInboundPeer_eq_err_of_none (pool : PeerPool)
    (info : P2PPeerInfo) (victim : Nat)
    (hcap : (pool.getPeers (some PeerKind.inbound)).length
        ≥ pool.maxInboundConnections)
    (hv : (pool.getPeers (some PeerKind.inbound)).get?
        (victim % (pool.getPeers (some PeerKind.inbound)).length) = none) :
    pool.addInboundPeer info victim
      = { result := AddResult.err PoolError.evictUndefined, pool := pool } := by
  simp only [PeerPool.addInboundPeer]
  rw [if_pos hcap, hv]

theorem addInboundPeer_eq_evict_insert (pool : PeerPool)
    (info : P2PPeerInfo) (victim : Nat) (victimPeer : Peer)
    (hcap : (pool.getPeers (some PeerKind.inbound)).length
        ≥ pool.maxInboundConnections)
    (hv : (pool.getPeers (some PeerKind.inbound)).get?
        (victim % (pool.getPeers (some PeerKind.inbound)).length)
        = some victimPeer) :
    pool.addInboundPeer info victim
      = addInboundInsert (pool.removePeer victimPeer.id).pool info := by
  simp only [PeerPool.addInboundPeer]
  rw [if_pos hcap, hv]

theorem getPeersCountPerKind_inbound (pool : PeerPool) :
    pool.getPeersCountPerKind.inbound
      = pool.peerMap.countP (fun e => decide (e.2.kind = PeerKind.inbound)) := rfl

theorem getPeersCountPerKind_outbound (pool : PeerPool) :
    pool.getPeersCountPerKind.outbound
      = pool.peerMap.countP (fun e => decide (e.2.kind = PeerKind.outbound)) := rfl

/-- C5 amended: with the inbound count at `maxInboundConnections` and at
least one inbound peer (`maxInboundConnections ≥ 1`) — the source crashes
with a `TypeError` at capacity 0 — `addInboundPeer` of a fresh peer evicts
exactly one existing inbound peer and inserts the new one: the call
succeeds, the inbound count ends at `maxInboundConnections`, the new peer
is present, and the map size is unchanged.  Moreover, for every
well-formed pool whose inbound count is within the cap, the inbound count
still respects the cap after any `addInboundPeer` call, errors included. -/
theorem addInboundPeer_capacity (pool : PeerPool) (info : P2PPeerInfo)
    (victim : Nat) (hWF : pool.WF)
    (hle : pool.getPeersCountPerKind.inbound ≤ pool.maxInboundConnections) :
    ((pool.addInboundPeer info victim).pool.getPeersCountPerKind.inbound
        ≤ pool.maxInboundConnections) ∧
    (pool.getPeersCountPerKind.inbound = pool.maxInboundConnections →
      1 ≤ pool.maxInboundConnections →
      pool.hasPeer (constructPeerIdFromPeerInfo info) = false →
      (pool.addInboundPeer info victim).result
          = AddResult.ok (bindHandlersToPeer (mkInboundPeer info)) ∧
      (pool.addInboundPeer info victim).pool.getPeersCountPerKind.inbound
          = pool.maxInboundConnections ∧
      (pool.addInboundPeer info victim).pool.hasPeer
          (constructPeerIdFromPeerInfo info) = true ∧
      (pool.addInboundPeer info victim).pool.peerMap.length
          = pool.peerMap.length) := by
  have hlen : (pool.getPeers (some PeerKind.inbound)).length
      = pool.getPeersCountPerKind.inbound := length_getPeers_some pool PeerKind.inbound
  by_cases hcap : (pool.getPeers (some PeerKind.inbound)).length
      ≥ pool.maxInboundConnections
  · cases hv : (pool.getPeers (some PeerKind.inbound)).get?
        (victim % (pool.getPeers (some PeerKind.inbound)).length) with
    | none =>
        rw [addInboundPeer_eq_err_of_none pool info victim hcap hv]
        constructor
        · exact hle
        · intro hfull hpos hfresh
          exfalso
          have hne : (pool.getPeers (some PeerKind.inbound)).length ≠ 0 := by omega
          have hlt : victim % (pool.getPeers (some PeerKind.inbound)).length
              < (pool.getPeers (some PeerKind.inbound)).length :=
            Nat.mod_lt _ (Nat.pos_of_ne_zero hne)
          rw [List.get?_eq_get hlt] at hv
          cases hv
    | some victimPeer =>
        have heq := addInboundPeer_eq_evict_insert pool info victim victimPeer hcap hv
        have hmem : victimPeer ∈ pool.getPeers (some PeerKind.inbound) :=
          List.get?_mem hv
        obtain ⟨⟨e, he, hev⟩, hkind⟩ :=
          mem_getPeers_some pool PeerKind.inbound victimPeer hmem
        have heid : e.1 = victimPeer.id := by rw [hWF.2 e he, hev]
        have hentry : (victimPeer.id, victimPeer) ∈ pool.peerMap := by
          have hee : e = (victimPeer.id, victimPeer) := Prod.ext heid hev
          rw [← hee]
          exact he
        have hget : mapGet pool.peerMap victimPeer.id = some victimPeer :=
          mapGet_of_mem_nodup pool.peerMap victimPeer.id victimPeer hWF.1 hentry
        have hrm : (pool.removePeer victimPeer.id).pool.peerMap
            = mapDelete pool.peerMap victimPeer.id := by
          simp [PeerPool.removePeer, hget]
        have hcnt := countP_mapDelete_of_mem pool.peerMap victimPeer.id victimPeer
          (fun e => decide (e.2.kind = PeerKind.inbound)) hWF.1 hentry
        simp only [hkind, decide_True, if_pos] at hcnt
        have hlen2 := length_mapDelete_of_mem pool.peerMap victimPeer.id
          victimPeer hWF.1 hentry
        have hc1 : (pool.removePeer victimPeer.id).pool.getPeersCountPerKind.inbound + 1
            = pool.getPeersCountPerKind.inbound := by
          rw [getPeersCountPerKind_inbound, hrm, getPeersCountPerKind_inbound]
          exact hcnt
        have hl1 : (pool.removePeer victimPeer.id).pool.peerMap.length + 1
            = pool.peerMap.length := by
          rw [hrm]
          exact hlen2
        have hins := addInboundInsert_spec (pool.removePeer victimPeer.id).pool info
        rw [heq]
        constructor
        · have := hins.1
          omega
        · intro hfull hpos hfresh
          have hfresh1 : (pool.removePeer victimPeer.id).pool.hasPeer
              (constructPeerIdFromPeerInfo info) = false := by
            simp only [PeerPool.hasPeer] at hfresh ⊢
            rw [mapHas_eq_false_iff] at hfresh ⊢
            rw [hrm]
            exact mapGet_mapDelete_none _ _ _ hfresh
          obtain ⟨hres, hcnt2, hhas2, hlen3⟩ := hins.2.1 hfresh1
          exact ⟨hres, by omega, hhas2, by omega⟩
  · push_neg at hcap
    rw [addInboundPeer_eq_insert_of_under pool info victim (by omega)]
    have hins := addInboundInsert_spec pool info
    constructor
    · have := hins.1
      omega
    · intro hfull hpos hfresh
      exfalso
      omega

/-- C5 witness: the theorem applied to the pool at inbound capacity 1
holding `2.2.2.2:5000`, adding the fresh inbound peer `3.3.3.3:5000` with
victim position 0. -/
theorem addInboundPeer_capacity_witness :
    ((poolFullInbound.addInboundPeer infoC 0).pool.getPeersCountPerKind.inbound
        ≤ poolFullInbound.maxInboundConnections) ∧
    ((poolFullInbound.addInboundPeer infoC 0).result
        = AddResult.ok (bindHandlersToPeer (mkInboundPeer infoC)) ∧
      (poolFullInbound.addInboundPeer infoC 0).pool.getPeersCountPerKind.inbound
        = poolFullInbound.maxInboundConnections ∧
      (poolFullInbound.addInboundPeer infoC 0).pool.hasPeer
        (constructPeerIdFromPeerInfo infoC) = true ∧
      (poolFullInbound.addInboundPeer infoC 0).pool.peerMap.length
        = poolFullInbound.peerMap.length) :=
  ⟨(addInboundPeer_capacity poolFullInbound infoC 0 (by decide) (by decide)).1,
   (addInboundPeer_capacity poolFullInbound infoC 0 (by decide) (by decide)).2
     (by decide) (by decide) (by decide)⟩

theorem outbound_addOutboundPeer_le (pool : PeerPool) (peerId : String)
    (info : P2PPeerInfo) :
    (pool.addOutboundPeer peerId info).pool.getPeersCountPerKind.outbound
      ≤ pool.getPeersCountPerKind.outbound + 1 := by
  cases hg : mapGet pool.peerMap peerId with
  | some p =>
      obtain ⟨-, hmap⟩ := addOutboundPeer_existing_branch pool peerId info p hg
      rw [getPeersCountPerKind_outbound, hmap, getPeersCountPerKind_outbound]
      rw [countP_mapSet_of_get pool.peerMap peerId p (p.updatePeerInfo info) _ hg
        (by simp [Peer.updatePeerInfo])]
      omega
  | none =>
      have hmap : (pool.addOutboundPeer peerId info).pool.peerMap
          = mapSet pool.peerMap (bindHandlersToPeer (mkOutboundPeer info)).id
              (bindHandlersToPeer (mkOutboundPeer info)) := by
        simp only [PeerPool.addOutboundPeer, hg]
      rw [getPeersCountPerKind_outbound, hmap, getPeersCountPerKind_outbound]
      exact countP_mapSet_le pool.peerMap _ _ _

theorem outbound_foldl_addOutbound_le (l : List P2PPeerInfo) :
    ∀ pool : PeerPool,
    ((l.foldl (fun pl info =>
        (pl.addOutboundPeer (constructPeerIdFromPeerInfo info) info).pool)
      pool).getPeersCountPerKind.outbound)
      ≤ pool.getPeersCountPerKind.outbound + l.length := by
  induction l with
  | nil => intro pool; simp
  | cons info rest ih =>
      intro pool
      simp only [List.foldl_cons, List.length_cons]
      have h1 := ih (pool.addOutboundPeer (constructPeerIdFromPeerInfo info) info).pool
      have h2 := outbound_addOutboundPeer_le pool (constructPeerIdFromPeerInfo info) info
      omega

/-- C1 amended: `addOutboundPeer`, and with it `runDiscovery` and
`fetchStatusAndCreatePeers`, add outbound peers without any capacity
check, so the outbound count can exceed `maxOutboundConnections`; only
`triggerNewConnections` bounds its additions: for any connection selector
that returns at most `peerLimit` candidates, a pool whose outbound count
is within the cap stays within the cap across `triggerNewConnections`. -/
theorem triggerNewConnections_preserves_outbound_cap (pool : PeerPool)
    (σ : ConnSelector) (peers : List P2PPeerInfo)
    (hσ : ∀ inp : ConnSelectorInput, ((σ inp).length : Int) ≤ max 0 inp.peerLimit)
    (h : pool.getPeersCountPerKind.outbound ≤ pool.maxOutboundConnections) :
    (pool.triggerNewConnections σ peers).getPeersCountPerKind.outbound
      ≤ pool.maxOutboundConnections := by
  have hlen := hσ (connSelInput pool peers)
  have hlimit : (connSelInput pool peers).peerLimit
      = (pool.maxOutboundConnections : Int)
        - (pool.getPeersCountPerKind.outbound : Int) := rfl
  rw [hlimit] at hlen
  have hmax : max (0 : Int)
      ((pool.maxOutboundConnections : Int)
        - (pool.getPeersCountPerKind.outbound : Int))
      = (pool.maxOutboundConnections : Int)
        - (pool.getPeersCountPerKind.outbound : Int) :=
    max_eq_right (by omega)
  rw [hmax] at hlen
  have hnat : (σ (connSelInput pool peers)).length
      + pool.getPeersCountPerKind.outbound ≤ pool.maxOutboundConnections := by
    omega
  have hfold := outbound_foldl_addOutbound_le (σ (connSelInput pool peers)) pool
  simp only [PeerPool.triggerNewConnections]
  omega

/-- C1 witness: the amended theorem applied to the empty pool with cap 1
and the take-up-to-limit selector over two candidates. -/
theorem triggerNewConnections_preserves_outbound_cap_witness :
    (emptyPoolCap1.triggerNewConnections selTakeForConn
        [infoA, infoB]).getPeersCountPerKind.outbound
      ≤ emptyPoolCap1.maxOutboundConnections :=
  triggerNewConnections_preserves_outbound_cap emptyPoolCap1 selTakeForConn
    [infoA, infoB]
    (fun inp => by
      have h1 : (selTakeForConn inp).length ≤ inp.peerLimit.toNat :=
        List.length_take_le _ _
      calc ((selTakeForConn inp).length : Int)
          ≤ (inp.peerLimit.toNat : Int) := by exact_mod_cast h1
        _ = max inp.peerLimit 0 := Int.ofNat_toNat inp.peerLimit
        _ = max 0 inp.peerLimit := max_comm _ _)
    (by decide)
